import Mathlib

set_option maxHeartbeats 1000000

/-!
Shallow embedding of the Sarus bundle-preparation pipeline: the device
request parser (src/cli/DeviceParser.cpp), the runtime orchestrator
(src/runtime/Runtime.cpp) and the configuration merger.  Definitions are
translated from the C++ sources; where a source file is absent from the
provided tree (ConfigsMerger.cpp, DeviceAccess.cpp) the definition is
modelled from the specification, as noted in its doc comment.
-/

/-! ## Mount flag constants, from <sys/mount.h> (Linux) -/

def MS_NOSUID : Nat := 2

def MS_NODEV : Nat := 4

def MS_REMOUNT : Nat := 32

def MS_REC : Nat := 16384

def MS_PRIVATE : Nat := 262144

def MS_SLAVE : Nat := 524288

def MS_STRICTATIME : Nat := 16777216

/-! ## Paths and tokenisation -/

/-- A boost::filesystem::path on POSIX is absolute iff it has a root
directory, i.e. its string starts with '/'.  The empty path is relative. -/
def isAbsolutePath (s : String) : Bool :=
  match s.toList with
  | '/' :: _ => true
  | _ => false

/-- boost path::is_relative() is the negation of is_absolute(). -/
def isRelativePath (s : String) : Bool := !isAbsolutePath s

/-- boost::split with a one-character separator: one token per separator
occurrence; the empty input yields a single empty token. -/
def splitChar (sep : Char) : List Char → List (List Char)
  | [] => [[]]
  | c :: rest =>
    let r := splitChar sep rest
    if c = sep then [] :: r
    else (c :: r.headD []) :: r.tail

/-- boost::split of a string on a separator character, as used by
DeviceParser::parseDeviceRequest with boost::is_any_of(":"). -/
def splitTokens (sep : Char) (s : String) : List String :=
  (splitChar sep s.toList).map (fun l => String.mk l)

theorem splitChar_ne_nil (sep : Char) (l : List Char) : splitChar sep l ≠ [] := by
  cases l with
  | nil => simp [splitChar]
  | cons c rest =>
    simp only [splitChar]
    by_cases h : c = sep <;> simp [h]

theorem splitChar_length (sep : Char) (l : List Char) :
    (splitChar sep l).length = l.count sep + 1 := by
  induction l with
  | nil => simp [splitChar]
  | cons c rest ih =>
    cases hr : splitChar sep rest with
    | nil => exact absurd hr (splitChar_ne_nil sep rest)
    | cons a as =>
      rw [hr] at ih
      simp only [List.length_cons] at ih
      by_cases h : c = sep
      · simp [splitChar, h, hr, List.count_cons]
        omega
      · simp [splitChar, h, hr, List.count_cons]
        omega

theorem splitTokens_length (sep : Char) (s : String) :
    (splitTokens sep s).length = s.toList.count sep + 1 := by
  simp [splitTokens, splitChar_length]

/-! ## Device access model (C2 of the spec, §4.2)

Modelled from the spec: the DeviceAccess constructor parses strings over
the letters {r,w,m}, rejecting repeats, unknown letters and empty input;
the canonical rendering lists the present letters in the fixed order rwm.
Its source (common/DeviceAccess) is not among the provided files. -/

structure DeviceAccess where
  r : Bool
  w : Bool
  m : Bool
deriving DecidableEq

inductive DeviceAccessError where
  | emptyInput
  | unknownChar (c : Char)
  | repeatedChar (c : Char)
deriving DecidableEq

def parseAccessChars : List Char → DeviceAccess → Except DeviceAccessError DeviceAccess
  | [], acc => .ok acc
  | c :: rest, acc =>
    if c = 'r' then
      if acc.r then .error (.repeatedChar c) else parseAccessChars rest ⟨true, acc.w, acc.m⟩
    else if c = 'w' then
      if acc.w then .error (.repeatedChar c) else parseAccessChars rest ⟨acc.r, true, acc.m⟩
    else if c = 'm' then
      if acc.m then .error (.repeatedChar c) else parseAccessChars rest ⟨acc.r, acc.w, true⟩
    else .error (.unknownChar c)

/-- Modelled from the spec: DeviceAccess construction from a string (§4.2);
empty input fails, letters outside {r,w,m} fail, repeats fail. -/
def parseDeviceAccess (s : String) : Except DeviceAccessError DeviceAccess :=
  if s = "" then .error .emptyInput
  else parseAccessChars s.toList ⟨false, false, false⟩

/-- The canonical string of a DeviceAccess: present letters in order rwm
(DeviceAccess::string of the spec, §4.2). -/
def DeviceAccess.string (a : DeviceAccess) : String :=
  (if a.r then "r" else "") ++ (if a.w then "w" else "") ++ (if a.m then "m" else "")

/-! ## Device request parser (src/cli/DeviceParser.cpp) -/

/-- The descriptor DeviceParser::parseDeviceRequest produces (the fields of
runtime::DeviceMount the parser fixes: source, destination, flags, access). -/
structure DeviceMount where
  source : String
  destination : String
  mountFlags : Nat
  access : DeviceAccess
deriving DecidableEq

inductive DeviceRequestInnerError where
  | emptyPath (context : String)
  | relativePath (context : String) (path : String)
  | deviceAccess (e : DeviceAccessError)
deriving DecidableEq

inductive DeviceRequestError where
  | noValuesProvided
  | tooManyTokens
  | invalidDeviceRequest (inner : DeviceRequestInnerError)
deriving DecidableEq

/-- DeviceParser::validateMountPath: empty paths and relative paths are
rejected with the given context string. -/
def validateMountPath (path : String) (context : String) :
    Except DeviceRequestInnerError Unit :=
  if path = "" then .error (.emptyPath context)
  else if isRelativePath path then .error (.relativePath context path)
  else .ok ()

/-- The body of DeviceParser::parseDeviceRequest after the empty-request
check, acting on the vector of colon-separated tokens. -/
def parseDeviceRequestTokens (requestVector : List String) :
    Except DeviceRequestError DeviceMount :=
  if requestVector.length > 3 then .error .tooManyTokens
  else
    let source := requestVector.headD ""
    let destAndAccess : String × String :=
      match requestVector with
      | [_, b, c] => (b, c)
      | [_, b] => if isRelativePath b then (source, b) else (b, "rwm")
      | _ => (source, "rwm")
    let destination := destAndAccess.1
    let accessString := destAndAccess.2
    match validateMountPath source "host" with
    | .error e => .error (.invalidDeviceRequest e)
    | .ok _ =>
      match validateMountPath destination "container" with
      | .error e => .error (.invalidDeviceRequest e)
      | .ok _ =>
        match parseDeviceAccess accessString with
        | .error e => .error (.invalidDeviceRequest (.deviceAccess e))
        | .ok deviceAccess =>
          .ok ⟨source, destination, MS_REC ||| MS_PRIVATE, deviceAccess⟩

/-- DeviceParser::parseDeviceRequest: empty request fails, then the request
is split on ':' and parsed from the token vector. -/
def parseDeviceRequest (requestString : String) : Except DeviceRequestError DeviceMount :=
  if requestString = "" then .error .noValuesProvided
  else parseDeviceRequestTokens (splitTokens ':' requestString)

/-- The error messages printed by DeviceParser.cpp: validation failures are
wrapped as an invalid-device-request message naming the request. -/
def deviceRequestInnerMessage : DeviceRequestInnerError → String
  | .emptyPath context => "detected empty " ++ context ++ " device path"
  | .relativePath context path => context ++ " device path '" ++ path ++ "' must be absolute"
  | .deviceAccess _ =>
    "Device access must be entered as a combination of 'rwm' characters, with no repetitions"

def deviceRequestErrorMessage (requestString : String) : DeviceRequestError → String
  | .noValuesProvided => "Invalid device request: no values provided"
  | .tooManyTokens =>
    "Invalid device request '" ++ requestString ++ "': too many tokens provided. " ++
      "The format of the option value must be at most '<host device>:<container device>:<access>'"
  | .invalidDeviceRequest e =>
    "Invalid device request '" ++ requestString ++ "': " ++ deviceRequestInnerMessage e

theorem absolute_ne_empty (s : String) (h : isAbsolutePath s = true) : s ≠ "" := by
  intro he
  subst he
  exact absurd h (by decide)

instance {e a : Type} [DecidableEq e] [DecidableEq a] : DecidableEq (Except e a) := fun x y =>
  match x, y with
  | .ok u, .ok v =>
    if h : u = v then isTrue (by rw [h]) else isFalse (fun he => by cases he; exact h rfl)
  | .error u, .error v =>
    if h : u = v then isTrue (by rw [h]) else isFalse (fun he => by cases he; exact h rfl)
  | .ok _, .error _ => isFalse (fun he => by cases he)
  | .error _, .ok _ => isFalse (fun he => by cases he)

theorem splitTokens_cons_ne_empty (s : String) (v : List String) (a : String)
    (h : splitTokens ':' s = a :: v) (hv : v ≠ []) : s ≠ "" := by
  intro he
  subst he
  simp [splitTokens, splitChar] at h
  exact hv h.2

theorem parseDeviceRequest_of_split (s : String) (hs : s ≠ "") :
    parseDeviceRequest s = parseDeviceRequestTokens (splitTokens ':' s) := by
  simp [parseDeviceRequest, hs]

theorem validateMountPath_absolute (p context : String) (h : isAbsolutePath p = true) :
    validateMountPath p context = .ok () := by
  simp [validateMountPath, absolute_ne_empty p h, isRelativePath, h]

theorem parseDeviceRequestTokens_two (a b : String) (ha : isAbsolutePath a = true) :
    parseDeviceRequestTokens [a, b] =
      if isRelativePath b then
        match parseDeviceAccess b with
        | .ok acc => .ok ⟨a, a, MS_REC ||| MS_PRIVATE, acc⟩
        | .error e => .error (.invalidDeviceRequest (.deviceAccess e))
      else .ok ⟨a, b, MS_REC ||| MS_PRIVATE, ⟨true, true, true⟩⟩ := by
  by_cases hb : isRelativePath b
  · simp [parseDeviceRequestTokens, hb, validateMountPath_absolute a "host" ha,
      validateMountPath_absolute a "container" ha]
    cases hpa : parseDeviceAccess b <;> simp
  · have hba : isAbsolutePath b = true := by
      simpa [isRelativePath] using hb
    simp [parseDeviceRequestTokens, hb, validateMountPath_absolute a "host" ha,
      validateMountPath_absolute b "container" hba,
      show parseDeviceAccess "rwm" = .ok ⟨true, true, true⟩ from by decide]

/-- Claim C3: for every device request string that splits into exactly two
colon-separated tokens, the parser chooses by the absoluteness of the second
token: an absolute second token becomes the destination (the source is the
first token, the access keeps its default rwm), while a relative second token
is treated as the access string and the destination equals the source. -/
theorem parseDeviceRequest_two_tokens (s a b : String)
    (hsplit : splitTokens ':' s = [a, b]) (ha : isAbsolutePath a = true) :
    (isAbsolutePath b = true →
      parseDeviceRequest s = .ok ⟨a, b, MS_REC ||| MS_PRIVATE, ⟨true, true, true⟩⟩)
    ∧ (isAbsolutePath b = false →
      parseDeviceRequest s =
        match parseDeviceAccess b with
        | .ok acc => .ok ⟨a, a, MS_REC ||| MS_PRIVATE, acc⟩
        | .error e => .error (.invalidDeviceRequest (.deviceAccess e))) := by
  have hs : s ≠ "" := splitTokens_cons_ne_empty s [b] a hsplit (by simp)
  have hmain := parseDeviceRequestTokens_two a b ha
  rw [parseDeviceRequest_of_split s hs, hsplit]
  constructor
  · intro hb
    rw [hmain]
    simp [isRelativePath, hb]
  · intro hb
    rw [hmain]
    simp [isRelativePath, hb]

theorem parseDeviceRequest_two_tokens_witness :
    parseDeviceRequest "/dev/nvidia0:/dev/gpu0" =
      .ok ⟨"/dev/nvidia0", "/dev/gpu0", MS_REC ||| MS_PRIVATE, ⟨true, true, true⟩⟩ :=
  (parseDeviceRequest_two_tokens "/dev/nvidia0:/dev/gpu0" "/dev/nvidia0" "/dev/gpu0"
    (by decide) (by decide)).1 (by decide)

/-- Claim C8: a device request that splits into more than three
colon-separated tokens fails with the too-many-tokens InvalidRequest error;
in particular a request with more than three colons fails so, 'a:b:c:d'
fails so, and the error message mentions too many tokens. -/
theorem parseDeviceRequest_too_many_tokens (s t : String)
    (htok : 3 < (splitTokens ':' s).length) (hcol : 3 < t.toList.count ':') :
    parseDeviceRequest s = .error .tooManyTokens
    ∧ parseDeviceRequest t = .error .tooManyTokens
    ∧ parseDeviceRequest "a:b:c:d" = .error .tooManyTokens
    ∧ deviceRequestErrorMessage "a:b:c:d" .tooManyTokens =
        "Invalid device request 'a:b:c:d': too many tokens provided. " ++
          "The format of the option value must be at most " ++
          "'<host device>:<container device>:<access>'" := by
  have htokt : 3 < (splitTokens ':' t).length := by
    rw [splitTokens_length]
    omega
  have hs : s ≠ "" := by
    intro he
    subst he
    simp [splitTokens, splitChar] at htok
  have ht : t ≠ "" := by
    intro he
    subst he
    simp [splitTokens, splitChar] at htokt
  refine ⟨?_, ?_, by decide, by decide⟩
  · rw [parseDeviceRequest_of_split s hs]
    simp [parseDeviceRequestTokens, htok]
  · rw [parseDeviceRequest_of_split t ht]
    simp [parseDeviceRequestTokens, htokt]

theorem parseDeviceRequest_too_many_tokens_witness :
    parseDeviceRequest "a:b:c:d" = .error .tooManyTokens :=
  (parseDeviceRequest_too_many_tokens "a:b:c:d" "a:b:c:d:e" (by decide) (by decide)).1

/-- Claim C9: a single-token device request consisting of one absolute path A
parses to a DeviceMount with source = A, destination = A, default access rwm
(canonically rendered "rwm"), and mount flags MS_REC|MS_PRIVATE. -/
theorem parseDeviceRequest_single_token (a : String)
    (hsplit : splitTokens ':' a = [a]) (ha : isAbsolutePath a = true) :
    parseDeviceRequest a = .ok ⟨a, a, MS_REC ||| MS_PRIVATE, ⟨true, true, true⟩⟩
    ∧ (DeviceAccess.mk true true true).string = "rwm" := by
  have hane : a ≠ "" := absolute_ne_empty a ha
  have hrel : isRelativePath a = false := by simp [isRelativePath, ha]
  refine ⟨?_, by decide⟩
  rw [parseDeviceRequest_of_split a hane, hsplit]
  simp only [parseDeviceRequestTokens, List.length_cons, List.length_nil]
  norm_num
  simp [validateMountPath, hane, hrel,
    show parseDeviceAccess "rwm" = .ok ⟨true, true, true⟩ from by decide]

theorem parseDeviceRequest_single_token_witness :
    parseDeviceRequest "/dev/nvidia0" =
      .ok ⟨"/dev/nvidia0", "/dev/nvidia0", MS_REC ||| MS_PRIVATE, ⟨true, true, true⟩⟩ :=
  (parseDeviceRequest_single_token "/dev/nvidia0" (by decide) (by decide)).1

/-- Claim C10: a two-token device request whose second token is empty (such as
'/dev/x:') treats the empty token as an access string, because an empty path
counts as relative; parsing therefore fails with the device-access validation
error wrapped as an invalid-device-request error, not with an empty-destination
path error. -/
theorem parseDeviceRequest_empty_second_token (s a : String)
    (hsplit : splitTokens ':' s = [a, ""]) (ha : isAbsolutePath a = true) :
    parseDeviceRequest s = .error (.invalidDeviceRequest (.deviceAccess .emptyInput))
    ∧ isRelativePath "" = true
    ∧ (∀ context, DeviceRequestError.invalidDeviceRequest (.deviceAccess .emptyInput)
        ≠ DeviceRequestError.invalidDeviceRequest (.emptyPath context))
    ∧ deviceRequestInnerMessage (.deviceAccess .emptyInput) =
        "Device access must be entered as a combination of 'rwm' characters, " ++
          "with no repetitions" := by
  have hs : s ≠ "" := splitTokens_cons_ne_empty s [""] a hsplit (by simp)
  refine ⟨?_, by decide, ?_, by decide⟩
  · rw [parseDeviceRequest_of_split s hs, hsplit, parseDeviceRequestTokens_two a "" ha]
    simp [isRelativePath, isAbsolutePath, parseDeviceAccess]
  · intro context h
    cases h

theorem parseDeviceRequest_empty_second_token_witness :
    parseDeviceRequest "/dev/x:" =
      .error (.invalidDeviceRequest (.deviceAccess .emptyInput)) :=
  (parseDeviceRequest_empty_second_token "/dev/x:" "/dev/x" (by decide) (by decide)).1

/-! ## Runtime orchestrator (src/runtime/Runtime.cpp)

Runtime::setupOCIBundle is a straight-line sequence of operations, each of
which either succeeds or throws, aborting the remainder.  The embedding
records each operation as an event; the fourteen steps of §4.7 are the
fixed event sequence below, and `runSetup` executes it against an oracle
telling which operations fail. -/

inductive MountEvent where
  | unshareMountNs
  | remountRootSlaveRec
  | mountBundleTmpfs
  | remountBundleSlaveRec
  | chmodBundleDir
  | loopMountSquashfsLower
  | mountOverlayRootfs
  | mountDevTmpfs
  | copyEtcFiles
  | bindMountInit
  | customMount (i : Nat)
  | extraMount (i : Nat)
  | deviceMount (i : Nat)
  | remountRootfsNoSuid
  | preservePmiFd
  | passStdoutAndStderrToHooks
  | applyFdChanges
  | generateConfigFile
deriving DecidableEq

/-- The per-invocation data setupOCIBundle's control flow depends on. -/
structure SetupConfig where
  addInitProcess : Bool
  customMountCount : Nat
  pmixSupport : Bool
  pmixMountCount : Nat
  deviceMountCount : Nat

def setupMountIsolationEvents : List MountEvent :=
  [.unshareMountNs, .remountRootSlaveRec]

def setupRamFilesystemEvents : List MountEvent :=
  [.mountBundleTmpfs, .remountBundleSlaveRec, .chmodBundleDir]

def mountImageIntoRootfsEvents : List MountEvent :=
  [.loopMountSquashfsLower, .mountOverlayRootfs]

def setupDevFilesystemEvents : List MountEvent :=
  [.mountDevTmpfs]

def copyEtcFilesIntoRootfsEvents : List MountEvent :=
  [.copyEtcFiles]

def mountInitProgramEvents (cfg : SetupConfig) : List MountEvent :=
  if cfg.addInitProcess then [.bindMountInit] else []

def performCustomMountsEvents (cfg : SetupConfig) : List MountEvent :=
  (List.range cfg.customMountCount).map MountEvent.customMount

def performExtraMountsEvents (cfg : SetupConfig) : List MountEvent :=
  if cfg.pmixSupport then (List.range cfg.pmixMountCount).map MountEvent.extraMount else []

def performDeviceMountsEvents (cfg : SetupConfig) : List MountEvent :=
  (List.range cfg.deviceMountCount).map MountEvent.deviceMount

def remountRootfsWithNoSuidEvents : List MountEvent :=
  [.remountRootfsNoSuid]

def fdHandlerEvents : List MountEvent :=
  [.preservePmiFd, .passStdoutAndStderrToHooks, .applyFdChanges]

def generateConfigFileEvents : List MountEvent :=
  [.generateConfigFile]

/-- The fourteen steps of Runtime::setupOCIBundle in source order. -/
def setupOCIBundleEvents (cfg : SetupConfig) : List MountEvent :=
  setupMountIsolationEvents ++ setupRamFilesystemEvents ++ mountImageIntoRootfsEvents ++
    setupDevFilesystemEvents ++ copyEtcFilesIntoRootfsEvents ++ mountInitProgramEvents cfg ++
    performCustomMountsEvents cfg ++ performExtraMountsEvents cfg ++
    performDeviceMountsEvents cfg ++ remountRootfsWithNoSuidEvents ++ fdHandlerEvents ++
    generateConfigFileEvents

/-- Execute a straight-line operation sequence: a failing operation (one the
oracle reports as failing) throws, so nothing after it is performed.  Returns
the performed operations and whether the sequence completed. -/
def runSetup (oracle : MountEvent → Bool) : List MountEvent → List MountEvent × Bool
  | [] => ([], true)
  | e :: rest =>
    if oracle e then ([], false)
    else
      let r := runSetup oracle rest
      (e :: r.1, r.2)

/-- Runtime::setupOCIBundle under a failure oracle. -/
def setupOCIBundle (oracle : MountEvent → Bool) (cfg : SetupConfig) :
    List MountEvent × Bool :=
  runSetup oracle (setupOCIBundleEvents cfg)

/-- The events that perform a kernel mount operation. -/
def isMountOperation : MountEvent → Bool
  | .remountRootSlaveRec => true
  | .mountBundleTmpfs => true
  | .remountBundleSlaveRec => true
  | .loopMountSquashfsLower => true
  | .mountOverlayRootfs => true
  | .mountDevTmpfs => true
  | .bindMountInit => true
  | .customMount _ => true
  | .extraMount _ => true
  | .deviceMount _ => true
  | .remountRootfsNoSuid => true
  | _ => false

/-- The custom, extra and device mounts: the bind mounts the rootfs NOSUID
remount must come after. -/
def isRequestedMount : MountEvent → Bool
  | .customMount _ => true
  | .extraMount _ => true
  | .deviceMount _ => true
  | _ => false

theorem runSetup_eq (oracle : MountEvent → Bool) (l : List MountEvent) :
    runSetup oracle l = (l.takeWhile (fun e => !oracle e), l.all (fun e => !oracle e)) := by
  induction l with
  | nil => simp [runSetup]
  | cons e rest ih =>
    by_cases h : oracle e
    · simp [runSetup, h, List.takeWhile_cons, List.all_cons]
    · simp [runSetup, h, List.takeWhile_cons, List.all_cons, ih]

theorem takeWhile_const_true (l : List MountEvent) : l.takeWhile (fun _ => true) = l := by
  induction l with
  | nil => simp
  | cons e rest ih => simp [List.takeWhile_cons, ih]

/-- Claim C1: in every execution of setupOCIBundle, the mount-namespace
unshare together with the MS_SLAVE|MS_REC remount of "/" is performed first,
before any other mount operation; the MS_REMOUNT|MS_NOSUID remount of the
rootfs is performed after all custom mounts, extra mounts and device mounts;
a failure-free run performs exactly the fixed fourteen-step sequence of §4.7
in order, and a failing step aborts the remainder, so the performed trace is
always the longest failure-free prefix of that fixed sequence. -/
theorem setupOCIBundle_step_order (cfg : SetupConfig) (oracle : MountEvent → Bool) :
    (setupOCIBundleEvents cfg).take 2
        = [MountEvent.unshareMountNs, MountEvent.remountRootSlaveRec]
    ∧ (∀ e ∈ (setupOCIBundleEvents cfg).drop 2,
        e ≠ MountEvent.unshareMountNs ∧ e ≠ MountEvent.remountRootSlaveRec)
    ∧ (∃ pre post, setupOCIBundleEvents cfg = pre ++ MountEvent.remountRootfsNoSuid :: post
        ∧ MountEvent.remountRootfsNoSuid ∉ pre
        ∧ (∀ e ∈ post, isRequestedMount e = false ∧ e ≠ MountEvent.remountRootfsNoSuid)
        ∧ (∀ e ∈ setupOCIBundleEvents cfg, isRequestedMount e = true → e ∈ pre))
    ∧ (setupOCIBundle oracle cfg).1 = (setupOCIBundleEvents cfg).takeWhile (fun e => !oracle e)
    ∧ (setupOCIBundle (fun _ => false) cfg).1 = setupOCIBundleEvents cfg := by
  obtain ⟨init, nc, pmix, np, nd⟩ := cfg
  refine ⟨?_, ?_, ?_, ?_, ?_⟩
  · cases init <;> cases pmix <;> rfl
  · intro e he
    constructor <;> rintro rfl <;>
      cases init <;> cases pmix <;>
        simp [setupOCIBundleEvents, setupMountIsolationEvents, setupRamFilesystemEvents,
          mountImageIntoRootfsEvents, setupDevFilesystemEvents, copyEtcFilesIntoRootfsEvents,
          mountInitProgramEvents, performCustomMountsEvents, performExtraMountsEvents,
          performDeviceMountsEvents, remountRootfsWithNoSuidEvents, fdHandlerEvents,
          generateConfigFileEvents] at he
  · refine ⟨setupMountIsolationEvents ++ setupRamFilesystemEvents ++
        mountImageIntoRootfsEvents ++ setupDevFilesystemEvents ++
        copyEtcFilesIntoRootfsEvents ++ mountInitProgramEvents ⟨init, nc, pmix, np, nd⟩ ++
        performCustomMountsEvents ⟨init, nc, pmix, np, nd⟩ ++
        performExtraMountsEvents ⟨init, nc, pmix, np, nd⟩ ++
        performDeviceMountsEvents ⟨init, nc, pmix, np, nd⟩,
      fdHandlerEvents ++ generateConfigFileEvents, ?_, ?_, ?_, ?_⟩
    · simp [setupOCIBundleEvents, remountRootfsWithNoSuidEvents, List.append_assoc]
    · cases init <;> cases pmix <;>
        simp [setupMountIsolationEvents, setupRamFilesystemEvents,
          mountImageIntoRootfsEvents, setupDevFilesystemEvents, copyEtcFilesIntoRootfsEvents,
          mountInitProgramEvents, performCustomMountsEvents, performExtraMountsEvents,
          performDeviceMountsEvents]
    · decide
    · intro e he hreq
      rw [show setupOCIBundleEvents ⟨init, nc, pmix, np, nd⟩ =
          (setupMountIsolationEvents ++ setupRamFilesystemEvents ++
            mountImageIntoRootfsEvents ++ setupDevFilesystemEvents ++
            copyEtcFilesIntoRootfsEvents ++ mountInitProgramEvents ⟨init, nc, pmix, np, nd⟩ ++
            performCustomMountsEvents ⟨init, nc, pmix, np, nd⟩ ++
            performExtraMountsEvents ⟨init, nc, pmix, np, nd⟩ ++
            performDeviceMountsEvents ⟨init, nc, pmix, np, nd⟩) ++
            MountEvent.remountRootfsNoSuid :: (fdHandlerEvents ++ generateConfigFileEvents)
          from by simp [setupOCIBundleEvents, remountRootfsWithNoSuidEvents,
            List.append_assoc]] at he
      rcases List.mem_append.mp he with hpre | hrest
      · exact hpre
      · rcases List.mem_cons.mp hrest with hno | hpost
        · subst hno
          exact absurd hreq (by decide)
        · simp [fdHandlerEvents, generateConfigFileEvents] at hpost
          rcases hpost with rfl | rfl | rfl | rfl <;> exact absurd hreq (by decide)
  · simp [setupOCIBundle, runSetup_eq]
  · simp [setupOCIBundle, runSetup_eq, takeWhile_const_true]

/-! ## Runtime::executeContainer (src/runtime/Runtime.cpp)

executeContainer changes directory to the bundle, forks and execs the OCI
runtime, waits for it, and — when the child's exit status is nonzero — logs
the status and exits with exactly that status; only failures of the
orchestration syscalls themselves (chdir, fork/exec) raise a setup error. -/

inductive ExecOutcome where
  | setupError
  | exitWithStatus (status : Nat)
  | success
deriving DecidableEq

/-- Runtime::executeContainer given whether chdir succeeds, whether
fork/exec/wait itself succeeds, and the child's exit status. -/
def executeContainer (chdirOk forkExecOk : Bool) (childStatus : Nat) : ExecOutcome :=
  if !chdirOk then .setupError
  else if !forkExecOk then .setupError
  else if childStatus ≠ 0 then .exitWithStatus childStatus
  else .success

/-- Claim C5: when the forked OCI runtime child exits with a nonzero status,
executeContainer does not wrap this into a setup error: the parent process
exits with exactly the child's exit status. -/
theorem executeContainer_propagates_child_status (status : Nat) (h : status ≠ 0) :
    executeContainer true true status = .exitWithStatus status
    ∧ executeContainer true true status ≠ .setupError := by
  refine ⟨by simp [executeContainer, h], ?_⟩
  simp [executeContainer, h]

theorem executeContainer_propagates_child_status_witness :
    executeContainer true true 137 = .exitWithStatus 137
    ∧ executeContainer true true 137 ≠ .setupError :=
  executeContainer_propagates_child_status 137 (by decide)

/-! ## Configuration merger (runtime::ConfigsMerger)

ConfigsMerger.cpp is not among the provided source files; only its unit
tests (src/runtime/test/test_ConfigsMerger.cpp) are.  The definitions below
are therefore modelled from the spec (§4.4), as their doc comments note.
Environments are maps from variable names to values, embedded as
association lists. -/

abbrev EnvMap := List (String × String)

def envGet (e : EnvMap) (k : String) : Option String :=
  (e.find? (fun p => p.1 == k)).map Prod.snd

def envHas (e : EnvMap) (k : String) : Bool := (envGet e k).isSome

def envErase (e : EnvMap) (k : String) : EnvMap :=
  e.filter (fun p => p.1 != k)

def envSet (e : EnvMap) (k v : String) : EnvMap :=
  envErase e k ++ [(k, v)]

/-- Modelled from the spec: the first stage of the environment merge (§4.4
rule 2): start from the host environment, overlay the image metadata
environment, the image winning on key conflicts. -/
def overlayEnv (hostEnv imageEnv : EnvMap) : EnvMap :=
  imageEnv ++ hostEnv.filter (fun p => !envHas imageEnv p.1)

theorem envGet_erase_self (e : EnvMap) (k : String) : envGet (envErase e k) k = none := by
  induction e with
  | nil => rfl
  | cons p rest ih =>
    obtain ⟨a, b⟩ := p
    by_cases h : a = k
    · rw [show envErase ((a, b) :: rest) k = envErase rest k from by
        simp [envErase, List.filter_cons, h]]
      exact ih
    · rw [show envErase ((a, b) :: rest) k = (a, b) :: envErase rest k from by
        simp [envErase, List.filter_cons, h]]
      rw [show envGet ((a, b) :: envErase rest k) k = envGet (envErase rest k) k from by
        simp [envGet, List.find?_cons, h]]
      exact ih

theorem envGet_erase_of_ne (e : EnvMap) (k q : String) (h : q ≠ k) :
    envGet (envErase e k) q = envGet e q := by
  induction e with
  | nil => rfl
  | cons p rest ih =>
    obtain ⟨a, b⟩ := p
    by_cases ha : a = k
    · subst ha
      have h1 : envErase ((a, b) :: rest) a = envErase rest a := by
        simp [envErase, List.filter_cons]
      have h2 : envGet ((a, b) :: rest) q = envGet rest q := by
        simp [envGet, List.find?_cons, Ne.symm h]
      rw [h1, h2, ih]
    · have h1 : envErase ((a, b) :: rest) k = (a, b) :: envErase rest k := by
        simp [envErase, List.filter_cons, ha]
      by_cases haq : a = q
      · subst haq
        have h2 : envGet ((a, b) :: rest) a = some b := by
          simp [envGet, List.find?_cons]
        have h3 : envGet ((a, b) :: envErase rest k) a = some b := by
          simp [envGet, List.find?_cons]
        rw [h1, h3, h2]
      · have h2 : envGet ((a, b) :: rest) q = envGet rest q := by
          simp [envGet, List.find?_cons, haq]
        have h3 : envGet ((a, b) :: envErase rest k) q = envGet (envErase rest k) q := by
          simp [envGet, List.find?_cons, haq]
        rw [h1, h3, h2, ih]

theorem envGet_set_self (e : EnvMap) (k v : String) : envGet (envSet e k v) k = some v := by
  have h := envGet_erase_self e k
  unfold envGet at h ⊢
  unfold envSet
  rw [List.find?_append]
  cases hf : List.find? (fun p => p.1 == k) (envErase e k) with
  | none => simp [List.find?_cons]
  | some p => rw [hf] at h; simp at h

theorem envGet_set_of_ne (e : EnvMap) (k v q : String) (h : q ≠ k) :
    envGet (envSet e k v) q = envGet e q := by
  have he := envGet_erase_of_ne e k q h
  unfold envGet at he ⊢
  unfold envSet
  rw [List.find?_append]
  have hkq : (k == q) = false := by
    simp [Ne.symm h]
  cases hf : List.find? (fun p => p.1 == q) (envErase e k) with
  | none =>
    rw [hf] at he
    simp [List.find?_cons, hkq, ← he]
  | some p =>
    rw [hf] at he
    simp [← he]

theorem envGet_overlay_of_image (hostEnv imageEnv : EnvMap) (k : String) (v : String)
    (h : envGet imageEnv k = some v) : envGet (overlayEnv hostEnv imageEnv) k = some v := by
  unfold envGet at h ⊢
  unfold overlayEnv
  rw [List.find?_append]
  cases hf : List.find? (fun p => p.1 == k) imageEnv with
  | none => rw [hf] at h; simp at h
  | some p =>
    rw [hf] at h
    simp [hf, h]

theorem find?_filter_key (l : List (String × String)) (k : String) (pred : String → Bool)
    (hk : pred k = true) :
    List.find? (fun p => p.1 == k) (l.filter (fun p => pred p.1)) =
      List.find? (fun p => p.1 == k) l := by
  induction l with
  | nil => rfl
  | cons p rest ih =>
    obtain ⟨a, b⟩ := p
    by_cases ha : a = k
    · subst ha
      simp [List.filter_cons, hk, List.find?_cons]
    · by_cases hp : pred a
      · simp [List.filter_cons, hp, List.find?_cons, ha, ih]
      · simp [List.filter_cons, hp, List.find?_cons, ha, ih]

theorem envGet_overlay_of_not_image (hostEnv imageEnv : EnvMap) (k : String)
    (h : envGet imageEnv k = none) :
    envGet (overlayEnv hostEnv imageEnv) k = envGet hostEnv k := by
  have hf : List.find? (fun p => p.1 == k) imageEnv = none := by
    unfold envGet at h
    cases hf : List.find? (fun p => p.1 == k) imageEnv with
    | none => rfl
    | some p => rw [hf] at h; simp at h
  have hhas : (fun s => !envHas imageEnv s) k = true := by
    simp [envHas, envGet, hf]
  unfold envGet overlayEnv
  rw [List.find?_append, hf]
  rw [find?_filter_key hostEnv k (fun s => !envHas imageEnv s) hhas]
  simp

/-! ## Nvidia environment rules and hook flags (§4.4 rule 2) -/

def nvidiaVisibleKey : String := "NVIDIA_VISIBLE_DEVICES"

def cudaVisibleKey : String := "CUDA_VISIBLE_DEVICES"

def nvidiaDriverCapsKey : String := "NVIDIA_DRIVER_CAPABILITIES"

/-- Removing all three Nvidia keys from an environment. -/
def stripNvidiaEnvironmentVariables (env : EnvMap) : EnvMap :=
  envErase (envErase (envErase env nvidiaVisibleKey) cudaVisibleKey) nvidiaDriverCapsKey

/-- std::stoi on a decimal GPU index token. -/
def parseNatChars : List Char → Nat → Nat
  | [], acc => acc
  | c :: rest, acc => parseNatChars rest (acc * 10 + (c.toNat - '0'.toNat))

def parseGpuIndex (s : String) : Nat := parseNatChars s.toList 0

def parseGpuList (s : String) : List Nat :=
  (splitTokens ',' s).map parseGpuIndex

/-- Modelled from the spec: the container CUDA_VISIBLE_DEVICES list is the
rank of each host device of the host list within the sorted selection
(§4.4 rule 2): host 3,1,5 yields 1,0,2. -/
def cudaRanksString (hostList : String) : String :=
  let devices := parseGpuList hostList
  let sorted := List.insertionSort (· ≤ ·) devices
  String.intercalate "," (devices.map (fun d => toString (List.findIdx (fun x => x == d) sorted)))

/-- Modelled from the spec: the Nvidia rules of the environment merge (§4.4
rule 2), applied after the host/image overlay; ConfigsMerger.cpp is not
among the provided files.  When NVIDIA_VISIBLE_DEVICES is present and the
host exposes a usable CUDA_VISIBLE_DEVICES list, NVIDIA_VISIBLE_DEVICES
becomes the host list unchanged, CUDA_VISIBLE_DEVICES the container ranks
of the host devices, and NVIDIA_DRIVER_CAPABILITIES defaults to all when
unset; the sentinel value NoDevFiles, an empty list or an absent host
CUDA_VISIBLE_DEVICES strips all three Nvidia keys. -/
def setNvidiaEnvironmentVariables (hostEnv env : EnvMap) : EnvMap :=
  match envGet hostEnv cudaVisibleKey, envHas env nvidiaVisibleKey with
  | some hostCuda, true =>
    if hostCuda = "" || hostCuda = "NoDevFiles" then
      stripNvidiaEnvironmentVariables env
    else
      let env1 := envSet env nvidiaVisibleKey hostCuda
      let env2 := envSet env1 cudaVisibleKey (cudaRanksString hostCuda)
      if envHas env2 nvidiaDriverCapsKey then env2
      else envSet env2 nvidiaDriverCapsKey "all"
  | _, _ => stripNvidiaEnvironmentVariables env

/-- Modelled from the spec: the feature-flag keys of the environment merge
(§4.4 rule 2): useMPI adds SARUS_MPI_HOOK=1; enableSSH adds SARUS_SSH_HOOK=1
and SARUS_SLURM_GLOBAL_SYNC_HOOK=1. -/
def addHookFlagsEnv (env : EnvMap) (useMPI enableSSH : Bool) : EnvMap :=
  let env2 := if useMPI then envSet env "SARUS_MPI_HOOK" "1" else env
  if enableSSH then
    envSet (envSet env2 "SARUS_SSH_HOOK" "1") "SARUS_SLURM_GLOBAL_SYNC_HOOK" "1"
  else env2

/-- Modelled from the spec: ConfigsMerger::getEnvironmentInContainer (§4.4
rule 2); ConfigsMerger.cpp is not among the provided files, only its tests.
Start from the host environment, overlay the image metadata environment
(image wins), then apply the Nvidia rules and the feature-flag keys. -/
def getEnvironmentInContainer (hostEnv metadataEnv : EnvMap)
    (useMPI enableSSH : Bool) : EnvMap :=
  addHookFlagsEnv
    (setNvidiaEnvironmentVariables hostEnv (overlayEnv hostEnv metadataEnv))
    useMPI enableSSH

theorem envGet_addHookFlags_of_ne (env : EnvMap) (useMPI enableSSH : Bool) (k : String)
    (h1 : k ≠ "SARUS_MPI_HOOK") (h2 : k ≠ "SARUS_SSH_HOOK")
    (h3 : k ≠ "SARUS_SLURM_GLOBAL_SYNC_HOOK") :
    envGet (addHookFlagsEnv env useMPI enableSSH) k = envGet env k := by
  cases useMPI <;> cases enableSSH <;>
    simp only [addHookFlagsEnv, Bool.false_eq_true, if_false, if_true, ite_true, ite_false,
      envGet_set_of_ne _ _ _ _ h1, envGet_set_of_ne _ _ _ _ h2, envGet_set_of_ne _ _ _ _ h3]

theorem envGet_strip_nvidia (env : EnvMap) :
    envGet (stripNvidiaEnvironmentVariables env) nvidiaVisibleKey = none
    ∧ envGet (stripNvidiaEnvironmentVariables env) cudaVisibleKey = none
    ∧ envGet (stripNvidiaEnvironmentVariables env) nvidiaDriverCapsKey = none := by
  unfold stripNvidiaEnvironmentVariables
  refine ⟨?_, ?_, envGet_erase_self _ _⟩
  · rw [envGet_erase_of_ne _ _ _ (by decide), envGet_erase_of_ne _ _ _ (by decide)]
    exact envGet_erase_self _ _
  · rw [envGet_erase_of_ne _ _ _ (by decide)]
    exact envGet_erase_self _ _

theorem setNvidia_strips (hostEnv env : EnvMap)
    (h : envGet hostEnv cudaVisibleKey = none ∨ envGet hostEnv cudaVisibleKey = some "" ∨
      envGet hostEnv cudaVisibleKey = some "NoDevFiles") :
    setNvidiaEnvironmentVariables hostEnv env = stripNvidiaEnvironmentVariables env := by
  rcases h with h | h | h <;>
    cases hb : envHas env nvidiaVisibleKey <;>
      simp [setNvidiaEnvironmentVariables, h, hb]

/-- Claim C6: when the host CUDA_VISIBLE_DEVICES is the sentinel NoDevFiles,
or is empty or absent, the merged container environment contains none of the
three Nvidia keys NVIDIA_VISIBLE_DEVICES, CUDA_VISIBLE_DEVICES and
NVIDIA_DRIVER_CAPABILITIES, even when the image metadata sets them. -/
theorem nvidia_env_stripped_on_sentinel (hostEnv metadataEnv : EnvMap)
    (useMPI enableSSH : Bool)
    (h : envGet hostEnv cudaVisibleKey = none ∨ envGet hostEnv cudaVisibleKey = some "" ∨
      envGet hostEnv cudaVisibleKey = some "NoDevFiles") :
    envGet (getEnvironmentInContainer hostEnv metadataEnv useMPI enableSSH)
        nvidiaVisibleKey = none
    ∧ envGet (getEnvironmentInContainer hostEnv metadataEnv useMPI enableSSH)
        cudaVisibleKey = none
    ∧ envGet (getEnvironmentInContainer hostEnv metadataEnv useMPI enableSSH)
        nvidiaDriverCapsKey = none := by
  unfold getEnvironmentInContainer
  rw [setNvidia_strips hostEnv (overlayEnv hostEnv metadataEnv) h]
  rw [envGet_addHookFlags_of_ne _ _ _ _ (by decide) (by decide) (by decide),
    envGet_addHookFlags_of_ne _ _ _ _ (by decide) (by decide) (by decide),
    envGet_addHookFlags_of_ne _ _ _ _ (by decide) (by decide) (by decide)]
  exact envGet_strip_nvidia _

theorem nvidia_env_stripped_on_sentinel_witness :
    envGet (getEnvironmentInContainer [("CUDA_VISIBLE_DEVICES", "NoDevFiles")]
        [("NVIDIA_VISIBLE_DEVICES", "all"), ("NVIDIA_DRIVER_CAPABILITIES", "all")]
        false false) nvidiaVisibleKey = none
    ∧ envGet (getEnvironmentInContainer [("CUDA_VISIBLE_DEVICES", "NoDevFiles")]
        [("NVIDIA_VISIBLE_DEVICES", "all"), ("NVIDIA_DRIVER_CAPABILITIES", "all")]
        false false) cudaVisibleKey = none
    ∧ envGet (getEnvironmentInContainer [("CUDA_VISIBLE_DEVICES", "NoDevFiles")]
        [("NVIDIA_VISIBLE_DEVICES", "all"), ("NVIDIA_DRIVER_CAPABILITIES", "all")]
        false false) nvidiaDriverCapsKey = none :=
  nvidia_env_stripped_on_sentinel [("CUDA_VISIBLE_DEVICES", "NoDevFiles")]
    [("NVIDIA_VISIBLE_DEVICES", "all"), ("NVIDIA_DRIVER_CAPABILITIES", "all")]
    false false (.inr (.inr (by decide)))

theorem setNvidia_maps (hostEnv env : EnvMap) (s : String)
    (hcuda : envGet hostEnv cudaVisibleKey = some s) (hne : s ≠ "") (hnd : s ≠ "NoDevFiles")
    (h0 : envHas env nvidiaVisibleKey = true) :
    envGet (setNvidiaEnvironmentVariables hostEnv env) nvidiaVisibleKey = some s
    ∧ envGet (setNvidiaEnvironmentVariables hostEnv env) cudaVisibleKey
        = some (cudaRanksString s)
    ∧ (envGet env nvidiaDriverCapsKey = none →
        envGet (setNvidiaEnvironmentVariables hostEnv env) nvidiaDriverCapsKey
          = some "all") := by
  have hun : setNvidiaEnvironmentVariables hostEnv env =
      if envHas (envSet (envSet env nvidiaVisibleKey s) cudaVisibleKey (cudaRanksString s))
          nvidiaDriverCapsKey then
        envSet (envSet env nvidiaVisibleKey s) cudaVisibleKey (cudaRanksString s)
      else
        envSet (envSet (envSet env nvidiaVisibleKey s) cudaVisibleKey (cudaRanksString s))
          nvidiaDriverCapsKey "all" := by
    simp [setNvidiaEnvironmentVariables, hcuda, h0, hne, hnd]
  rw [hun]
  by_cases hcaps : envHas
      (envSet (envSet env nvidiaVisibleKey s) cudaVisibleKey (cudaRanksString s))
      nvidiaDriverCapsKey = true
  · simp only [hcaps, if_true]
    refine ⟨?_, ?_, ?_⟩
    · rw [envGet_set_of_ne _ _ _ _ (by decide), envGet_set_self]
    · rw [envGet_set_self]
    · intro hnone
      rw [envHas, envGet_set_of_ne _ _ _ _ (by decide),
        envGet_set_of_ne _ _ _ _ (by decide), hnone] at hcaps
      simp at hcaps
  · simp only [Bool.not_eq_true] at hcaps
    simp only [hcaps, Bool.false_eq_true, if_false]
    refine ⟨?_, ?_, ?_⟩
    · rw [envGet_set_of_ne _ _ _ _ (by decide), envGet_set_of_ne _ _ _ _ (by decide),
        envGet_set_self]
    · rw [envGet_set_of_ne _ _ _ _ (by decide), envGet_set_self]
    · intro _
      rw [envGet_set_self]

/-- Claim C2 (as amended): for every host environment whose
CUDA_VISIBLE_DEVICES is a non-empty, non-sentinel list, when the image
metadata sets NVIDIA_VISIBLE_DEVICES, the merged container environment has
NVIDIA_VISIBLE_DEVICES equal to the host CUDA_VISIBLE_DEVICES list
unchanged, CUDA_VISIBLE_DEVICES equal to the list of ranks of each host
device within the sorted selection (host 3,1,5 yields 1,0,2), and
NVIDIA_DRIVER_CAPABILITIES equal to all when neither the image metadata nor
the host environment sets it. -/
theorem nvidia_environment_mapping (hostEnv metadataEnv : EnvMap)
    (useMPI enableSSH : Bool) (s : String)
    (hcuda : envGet hostEnv cudaVisibleKey = some s)
    (hne : s ≠ "") (hnd : s ≠ "NoDevFiles")
    (hnv : envHas metadataEnv nvidiaVisibleKey = true) :
    envGet (getEnvironmentInContainer hostEnv metadataEnv useMPI enableSSH)
        nvidiaVisibleKey = some s
    ∧ envGet (getEnvironmentInContainer hostEnv metadataEnv useMPI enableSSH)
        cudaVisibleKey = some (cudaRanksString s)
    ∧ (envHas metadataEnv nvidiaDriverCapsKey = false →
        envHas hostEnv nvidiaDriverCapsKey = false →
        envGet (getEnvironmentInContainer hostEnv metadataEnv useMPI enableSSH)
          nvidiaDriverCapsKey = some "all")
    ∧ cudaRanksString "3,1,5" = "1,0,2" := by
  obtain ⟨v, hv⟩ := Option.isSome_iff_exists.mp hnv
  have h0 : envHas (overlayEnv hostEnv metadataEnv) nvidiaVisibleKey = true := by
    unfold envHas
    rw [envGet_overlay_of_image hostEnv metadataEnv nvidiaVisibleKey v hv]
    rfl
  have hm := setNvidia_maps hostEnv (overlayEnv hostEnv metadataEnv) s hcuda hne hnd h0
  unfold getEnvironmentInContainer
  refine ⟨?_, ?_, ?_, by decide⟩
  · rw [envGet_addHookFlags_of_ne _ _ _ _ (by decide) (by decide) (by decide)]
    exact hm.1
  · rw [envGet_addHookFlags_of_ne _ _ _ _ (by decide) (by decide) (by decide)]
    exact hm.2.1
  · intro hmc hhc
    rw [envGet_addHookFlags_of_ne _ _ _ _ (by decide) (by decide) (by decide)]
    apply hm.2.2
    have h1 : envGet metadataEnv nvidiaDriverCapsKey = none := by
      cases hx : envGet metadataEnv nvidiaDriverCapsKey with
      | none => rfl
      | some w => rw [envHas, hx] at hmc; simp at hmc
    have h2 : envGet hostEnv nvidiaDriverCapsKey = none := by
      cases hx : envGet hostEnv nvidiaDriverCapsKey with
      | none => rfl
      | some w => rw [envHas, hx] at hhc; simp at hhc
    rw [envGet_overlay_of_not_image hostEnv metadataEnv _ h1, h2]

theorem nvidia_environment_mapping_witness :
    envGet (getEnvironmentInContainer [("CUDA_VISIBLE_DEVICES", "3,1,5")]
        [("NVIDIA_VISIBLE_DEVICES", "all")] false false) nvidiaVisibleKey = some "3,1,5"
    ∧ envGet (getEnvironmentInContainer [("CUDA_VISIBLE_DEVICES", "3,1,5")]
        [("NVIDIA_VISIBLE_DEVICES", "all")] false false) cudaVisibleKey = some "1,0,2"
    ∧ envGet (getEnvironmentInContainer [("CUDA_VISIBLE_DEVICES", "3,1,5")]
        [("NVIDIA_VISIBLE_DEVICES", "all")] false false) nvidiaDriverCapsKey = some "all" := by
  have h := nvidia_environment_mapping [("CUDA_VISIBLE_DEVICES", "3,1,5")]
    [("NVIDIA_VISIBLE_DEVICES", "all")] false false "3,1,5"
    (by decide) (by decide) (by decide) (by decide)
  refine ⟨h.1, ?_, h.2.2.1 (by decide) (by decide)⟩
  rw [h.2.1]
  decide

/-- Claim C2 as frozen is falsified at a host environment that itself sets
NVIDIA_DRIVER_CAPABILITIES: the image does not set it, yet the merged
environment keeps the host value instead of all, because the default only
applies when the key is absent from the merged host+image environment. -/
theorem nvidia_driver_caps_counterexample :
    envGet (getEnvironmentInContainer
        [("CUDA_VISIBLE_DEVICES", "0"), ("NVIDIA_DRIVER_CAPABILITIES", "compute")]
        [("NVIDIA_VISIBLE_DEVICES", "all")] false false) nvidiaDriverCapsKey
        = some "compute"
    ∧ envGet (getEnvironmentInContainer
        [("CUDA_VISIBLE_DEVICES", "0"), ("NVIDIA_DRIVER_CAPABILITIES", "compute")]
        [("NVIDIA_VISIBLE_DEVICES", "all")] false false) nvidiaDriverCapsKey
        ≠ some "all" := by
  refine ⟨by decide, by decide⟩

/-- Claim C7: in the environment merge, a key present in both the host
environment and the image metadata environment maps to the image metadata
value (image wins on key conflict), and a key present in only one source
keeps its value; on the unit test's inputs the full merged container
environment maps KEY to CONTAINER_VALUE. -/
theorem environment_merge_image_wins (hostEnv metadataEnv : EnvMap) (k v : String)
    (himg : envGet metadataEnv k = some v) :
    envGet (overlayEnv hostEnv metadataEnv) k = some v
    ∧ (∀ q, envGet metadataEnv q = none →
        envGet (overlayEnv hostEnv metadataEnv) q = envGet hostEnv q)
    ∧ envGet (getEnvironmentInContainer [("KEY", "HOST_VALUE")]
        [("KEY", "CONTAINER_VALUE")] false false) "KEY" = some "CONTAINER_VALUE" :=
  ⟨envGet_overlay_of_image _ _ _ _ himg,
   fun q hq => envGet_overlay_of_not_image _ _ _ hq,
   by decide⟩

theorem environment_merge_image_wins_witness :
    envGet (overlayEnv [("KEY", "HOST_VALUE")] [("KEY", "CONTAINER_VALUE")]) "KEY"
      = some "CONTAINER_VALUE" :=
  (environment_merge_image_wins [("KEY", "HOST_VALUE")] [("KEY", "CONTAINER_VALUE")]
    "KEY" "CONTAINER_VALUE" (by decide)).1

/-! ## Argv merge (§4.4 rule 3) -/

inductive CommandError where
  | noCommand
deriving DecidableEq

/-- Modelled from the spec: ConfigsMerger::getCommandToExecuteInContainer
(§4.4 rule 3); ConfigsMerger.cpp is not among the provided files, only its
tests.  A set CLI entrypoint replaces the image entrypoint and discards the
image cmd; otherwise the image entrypoint is kept.  Non-empty CLI exec args
replace the image cmd.  The final argv is entrypoint ++ cmd; an empty argv
fails with NoCommand. -/
def getCommandToExecuteInContainer (cliEntrypoint : Option (List String))
    (cliExecArgs : List String) (imageEntry : Option (List String))
    (imageCmd : Option (List String)) : Except CommandError (List String) :=
  let entry :=
    match cliEntrypoint with
    | some e => e
    | none => imageEntry.getD []
  let cmd :=
    if cliExecArgs ≠ [] then cliExecArgs
    else if cliEntrypoint.isSome then []
    else imageCmd.getD []
  let argv := entry ++ cmd
  if argv = [] then .error .noCommand else .ok argv

/-- Claim C4: a set CLI entrypoint replaces the image entrypoint and the
image cmd is discarded (the merge result does not depend on the image
entrypoint or image cmd; image entry=[entry-img], cmd=[cmd-img], CLI
entry=[entry-cli] yields argv [entry-cli]); otherwise the image entrypoint
is kept and non-empty CLI exec args replace the image cmd; the final argv
is entrypoint ++ cmd. -/
theorem getCommandToExecuteInContainer_merge (e execArgs : List String)
    (imageEntry imageCmd : Option (List String)) (he : e ≠ []) :
    getCommandToExecuteInContainer (some e) execArgs imageEntry imageCmd
        = getCommandToExecuteInContainer (some e) execArgs none none
    ∧ getCommandToExecuteInContainer (some e) [] imageEntry imageCmd = .ok e
    ∧ (execArgs ≠ [] →
        getCommandToExecuteInContainer (some e) execArgs imageEntry imageCmd
          = .ok (e ++ execArgs))
    ∧ (execArgs ≠ [] →
        getCommandToExecuteInContainer none execArgs imageEntry imageCmd
          = .ok (imageEntry.getD [] ++ execArgs))
    ∧ getCommandToExecuteInContainer (some ["entry-cli"]) []
        (some ["entry-metadata"]) (some ["cmd-metadata"]) = .ok ["entry-cli"]
    ∧ getCommandToExecuteInContainer none []
        (some ["entry-metadata"]) (some ["cmd-metadata"])
        = .ok ["entry-metadata", "cmd-metadata"] := by
  refine ⟨?_, ?_, ?_, ?_, by decide, by decide⟩
  · by_cases hx : execArgs = []
    · subst hx
      simp [getCommandToExecuteInContainer]
    · simp [getCommandToExecuteInContainer, hx]
  · simp [getCommandToExecuteInContainer, he]
  · intro hx
    have : e ++ execArgs ≠ [] := by
      simp [hx]
    simp [getCommandToExecuteInContainer, hx, this]
  · intro hx
    have : imageEntry.getD [] ++ execArgs ≠ [] := by
      simp [hx]
    simp [getCommandToExecuteInContainer, hx, this]

theorem getCommandToExecuteInContainer_merge_witness :
    getCommandToExecuteInContainer (some ["entry-cli"]) ["cmd-cli"]
        (some ["entry-metadata"]) (some ["cmd-metadata"])
        = .ok ["entry-cli", "cmd-cli"] :=
  (getCommandToExecuteInContainer_merge ["entry-cli"] ["cmd-cli"]
    (some ["entry-metadata"]) (some ["cmd-metadata"]) (by decide)).2.2.1 (by decide)
